import Mathlib

/-!
Verification of the MD5 model loader (`src/client/md5/model/model.rs`).

The development shallowly embeds the loader: the tokenizer reads a
`List Char` stream, numeric fields are modelled over `ℝ` (parsed exactly
through `ℚ`), index/count fields are `Nat` (they index arrays) and signed
metadata fields are `Int` (they are `i32` in the source).  Fallible code
(out-of-range vector indexing, which fails the task in the source) is
modelled with `Option`; unbounded `while` loops are driven by fuel, with
fuel exhaustion mapped to `none`.
-/

/-- A 2-component vector (`math::Vec2f`; the math module is external to the
repository, modelled as a plain pair of reals). -/
structure Vec2 where
  x : ℝ
  y : ℝ

/-- A 3-component vector (`math::Vec3f`; external math module). -/
structure Vec3 where
  x : ℝ
  y : ℝ
  z : ℝ

/-- Zero vector, `math::Vec3f::zero()`. -/
def Vec3.zero : Vec3 := ⟨0, 0, 0⟩

instance : Zero Vec3 := ⟨Vec3.zero⟩

instance : Add Vec3 := ⟨fun a b => ⟨a.x + b.x, a.y + b.y, a.z + b.z⟩⟩

theorem Vec3.add_def (a b : Vec3) : a + b = ⟨a.x + b.x, a.y + b.y, a.z + b.z⟩ := rfl

theorem Vec3.zero_def : (0 : Vec3) = ⟨0, 0, 0⟩ := rfl

theorem Vec3.ext_iff' (a b : Vec3) : a = b ↔ a.x = b.x ∧ a.y = b.y ∧ a.z = b.z := by
  constructor
  · rintro rfl; exact ⟨rfl, rfl, rfl⟩
  · rcases a with ⟨ax, ay, az⟩
    rcases b with ⟨bx, by', bz⟩
    rintro ⟨h1, h2, h3⟩
    simp_all

instance : AddCommMonoid Vec3 where
  add_assoc a b c := by simp [Vec3.add_def, Vec3.ext_iff']; constructor <;> [skip; constructor] <;> ring
  zero_add a := by simp [Vec3.add_def, Vec3.zero_def, Vec3.ext_iff']
  add_zero a := by simp [Vec3.add_def, Vec3.zero_def, Vec3.ext_iff']
  add_comm a b := by simp [Vec3.add_def, Vec3.ext_iff']; constructor <;> [skip; constructor] <;> ring
  nsmul n a := ⟨n * a.x, n * a.y, n * a.z⟩
  nsmul_zero a := by simp [Vec3.zero_def, Vec3.ext_iff']
  nsmul_succ n a := by simp [Vec3.add_def, Vec3.ext_iff']; constructor <;> [skip; constructor] <;> ring

/-- Scale a vector by a scalar on the right (the source writes
`(joint.position + rot_pos) * weight.bias`). -/
def Vec3.scale (v : Vec3) (s : ℝ) : Vec3 := ⟨v.x * s, v.y * s, v.z * s⟩

/-- Cross product of 3-vectors (used by the quaternion rotation formula). -/
def Vec3.cross (a b : Vec3) : Vec3 :=
  ⟨a.y * b.z - a.z * b.y, a.z * b.x - a.x * b.z, a.x * b.y - a.y * b.x⟩

/-- A quaternion (`math::Quaternion`; external math module), stored as
scalar part `w` plus vector part `x, y, z`. -/
structure Quat where
  w : ℝ
  x : ℝ
  y : ℝ
  z : ℝ

/-- Modelled from the spec: `math::Quaternion::compute_w` lives in the
external math module; §4.3 gives the formula
`w = sqrt(max(0, 1 - x² - y² - z²))`, always taken non-negative. -/
noncomputable def computeW (x y z : ℝ) : ℝ := Real.sqrt (max 0 (1 - x ^ 2 - y ^ 2 - z ^ 2))

/-- The in-place `orientation.compute_w()` call: replace the scalar part by
the value derived from the stored vector part. -/
noncomputable def Quat.withComputedW (q : Quat) : Quat := { q with w := computeW q.x q.y q.z }

/-- Modelled from the spec: `math::Quaternion::rotate_vec` lives in the
external math module.  §4.2 and the glossary specify rotating a vector by
the (unit) quaternion; this is the standard rotation formula
`v + 2w (qv × v) + 2 (qv × (qv × v))` with `qv` the vector part. -/
def Quat.rotateVec (q : Quat) (v : Vec3) : Vec3 :=
  let qv : Vec3 := ⟨q.x, q.y, q.z⟩
  v + (qv.cross v).scale (2 * q.w) + (qv.cross (qv.cross v)).scale 2

/-- A skeleton joint: `md5::Joint` (declared outside the shown sources;
modelled from the spec §3: name, parent index or `-1` style root sentinel,
bind position and bind orientation). -/
structure Joint where
  name : String
  parent : Int
  position : Vec3
  orientation : Quat

/-- Modelled from the spec: `Joint::new()` produces zero-initialized
defaults (§4.1 "commonly a zero-initialized default"). -/
def Joint.init : Joint := ⟨"", 0, Vec3.zero, ⟨0, 0, 0, 0⟩⟩

/-- A mesh vertex: `md5::Vertex` (modelled from the spec §3).  The
`start_weight`/`weight_count` fields index the owning mesh's weight array
and are modelled as `Nat`. -/
structure Vertex where
  tex_coord : Vec2
  start_weight : Nat
  weight_count : Nat
  position : Vec3
  normal : Vec3

/-- Modelled from the spec: `Vertex::new()` zero-initialized defaults. -/
def Vertex.init : Vertex := ⟨⟨0, 0⟩, 0, 0, Vec3.zero, Vec3.zero⟩

/-- A triangle: three vertex indices (modelled from the spec §3). -/
structure Triangle where
  i0 : Nat
  i1 : Nat
  i2 : Nat

/-- Modelled from the spec: `Triangle::new()` zero-initialized defaults. -/
def Triangle.init : Triangle := ⟨0, 0, 0⟩

/-- A skinning weight: `md5::Weight` (modelled from the spec §3).
`joint_id` indexes the Model's joint array and is modelled as `Nat`. -/
structure Weight where
  joint_id : Nat
  bias : ℝ
  position : Vec3

/-- Modelled from the spec: `Weight::new()` zero-initialized defaults. -/
def Weight.init : Weight := ⟨0, 0, Vec3.zero⟩

/-- A mesh: `md5::Mesh` (modelled from the spec §3): vertex/weight/triangle
sequences plus the resolved texture path and the parallel output buffers
`positions`, `tex_coords` and the flattened `indices` buffer. -/
structure Mesh where
  texture : String
  verts : List Vertex
  triangles : List Triangle
  weights : List Weight
  positions : List Vec3
  tex_coords : List Vec2
  indices : List Nat

/-- Modelled from the spec: `Mesh::new()` empty defaults. -/
def Mesh.init : Mesh := ⟨"", [], [], [], [], [], []⟩

/-- Per-joint metadata exposed by an animation for the compatibility check
(modelled from the spec §6: `{ name, parent_id }`). -/
structure JointInfo where
  name : String
  parent_id : Int

/-- One joint pose of the animated skeleton (modelled from the spec §6:
position plus orientation, index-aligned with the bind joints). -/
structure SkelJoint where
  position : Vec3
  orientation : Quat

/-- The animation collaborator (modelled from the spec §6): joint count and
per-joint info for the compatibility check, plus the current animated
skeleton consumed by the per-frame skinning kernel. -/
structure Animation where
  num_joints : Int
  joint_infos : List JointInfo
  animated_skeleton : List SkelJoint

/-- The `Model` struct of `model.rs` (lines 23-38).  `local_to_world`
(external `math::Mat4x4` render state) is not modelled: no claim concerns
it and the math module is external. -/
structure Model where
  file_directory : String
  version : Int
  num_joints : Int
  num_meshes : Int
  is_animated : Bool
  joints : List Joint
  meshes : List Mesh
  animation : Option Animation

/-- The freshly initialized model built inside `Model::new` (lines 55-69),
with the directory already extracted from the path. -/
def mkModel (dir : String) : Model :=
  { file_directory := dir
    version := 0
    num_joints := 0
    num_meshes := 0
    is_animated := false
    joints := []
    meshes := []
    animation := none }

/-! ## Tokenizer

`read_param!` (lines 88-105): skip whitespace, then accumulate
non-whitespace characters; the terminating whitespace character is
consumed by the look-ahead read.  At end of input the word read so far is
returned (`""` when only whitespace remained). -/

/-- One `read_param!` step: returns the word and the remaining stream. -/
def readWord (s : List Char) : String × List Char :=
  let s1 := s.dropWhile Char.isWhitespace
  let w := s1.takeWhile (fun c => !c.isWhitespace)
  let r := s1.dropWhile (fun c => !c.isWhitespace)
  (⟨w⟩, r.drop 1)

/-- `read_junk!` (line 106): read a word and discard it. -/
def skipWord (s : List Char) : List Char := (readWord s).2

/-- `ignore_line!` (line 108): `read_line`, discarding through the next
newline character. -/
def readLine (s : List Char) : List Char :=
  (s.dropWhile (fun c => !(c == '\n'))).drop 1

/-- Numeric value of a digit string. -/
def digitsVal (l : List Char) : Nat :=
  l.foldl (fun a c => 10 * a + (c.toNat - 48)) 0

/-- Parse a non-empty all-digit character list. -/
def parseNatList (l : List Char) : Option Nat :=
  if l.isEmpty then none
  else if l.all Char.isDigit then some (digitsVal l) else none

/-- `FromStr` for an unsigned index/count field. -/
def parseNatTok (s : String) : Option Nat := parseNatList s.data

/-- `FromStr` for `i32`: optional leading minus sign, then digits. -/
def parseIntTok (s : String) : Option Int :=
  match s.data with
  | '-' :: rest => (parseNatList rest).map (fun n => -(n : Int))
  | l => (parseNatList l).map (fun n => (n : Int))

/-- Decimal core of a float token: integer digits, optionally a dot and
fraction digits (exponents, which no claim exercises, are not modelled). -/
def parseRatCore (l : List Char) : Option ℚ :=
  let ip := l.takeWhile (fun c => !(c == '.'))
  let rest := l.dropWhile (fun c => !(c == '.'))
  match rest with
  | [] => (parseNatList ip).map (fun n => (n : ℚ))
  | _ :: fp =>
    if ip.all Char.isDigit && fp.all Char.isDigit && !(ip.isEmpty && fp.isEmpty)
    then some ((digitsVal ip : ℚ) + (digitsVal fp : ℚ) / (10 : ℚ) ^ fp.length)
    else none

/-- `FromStr` for `f32`, modelled exactly over `ℚ`. -/
def parseRatTok (s : String) : Option ℚ :=
  match s.data with
  | '-' :: rest => (parseRatCore rest).map (fun q => -q)
  | l => parseRatCore l

/-- `read_type!` (lines 110-122) at a real-valued field: read one word; on
conversion success store the value, otherwise keep the old value (the
failure is only logged); either way continue after the word. -/
def readTypeR (old : ℝ) (s : List Char) : ℝ × List Char :=
  let r := readWord s
  match parseRatTok r.1 with
  | some q => ((q : ℝ), r.2)
  | none => (old, r.2)

/-- `read_type!` at an `i32` metadata field. -/
def readTypeI (old : Int) (s : List Char) : Int × List Char :=
  let r := readWord s
  match parseIntTok r.1 with
  | some v => (v, r.2)
  | none => (old, r.2)

/-- `read_type!` at an index/count field. -/
def readTypeN (old : Nat) (s : List Char) : Nat × List Char :=
  let r := readWord s
  match parseNatTok r.1 with
  | some v => (v, r.2)
  | none => (old, r.2)

/-! ## The `joints` block (lines 152-186)

A single mutable `Joint` is declared before the loop and reused across
iterations, so a field whose token fails to convert keeps the value it had
from the previous entry (or the zero default on the first entry). -/

/-- One iteration of the joints loop (lines 159-182): name, parent,
bracket, position, two brackets, orientation (x, y, z), bracket, then
`compute_w` and finally the rest of the line is ignored.  Returns the
joint that is pushed (which is also the mutable state for the next
iteration) and the remaining stream. -/
noncomputable def jointIter (j : Joint) (s : List Char) : Joint × List Char :=
  let r0 := readWord s
  let r1 := readTypeI j.parent r0.2
  let s3 := skipWord r1.2
  let r2 := readTypeR j.position.x s3
  let r3 := readTypeR j.position.y r2.2
  let r4 := readTypeR j.position.z r3.2
  let s8 := skipWord (skipWord r4.2)
  let r5 := readTypeR j.orientation.x s8
  let r6 := readTypeR j.orientation.y r5.2
  let r7 := readTypeR j.orientation.z r6.2
  let s12 := skipWord r7.2
  let j' : Joint :=
    { name := r0.1
      parent := r1.1
      position := ⟨r2.1, r3.1, r4.1⟩
      orientation := Quat.withComputedW ⟨j.orientation.w, r5.1, r6.1, r7.1⟩ }
  (j', readLine s12)

/-- The `for _ in range(0, self.num_joints)` loop, threading the mutable
joint; returns the pushed joints in order and the remaining stream. -/
noncomputable def jointsLoop : Nat → Joint → List Char → List Joint × List Char
  | 0, _, s => ([], s)
  | n + 1, j, s =>
    let (j', s') := jointIter j s
    let (rest, s'') := jointsLoop n j' s'
    (j' :: rest, s'')

/-! ## The `mesh` block inner loops (lines 240-307) -/

/-- One iteration of the vertex loop (lines 247-262): three discarded
tokens, the two texture coordinates, a discarded token, `start_weight`,
`weight_count`, then the rest of the line.  The mutable vertex threads
through. -/
def vertIter (v : Vertex) (s : List Char) : Vertex × List Char :=
  let s1 := skipWord (skipWord (skipWord s))
  let r1 := readTypeR v.tex_coord.x s1
  let r2 := readTypeR v.tex_coord.y r1.2
  let s4 := skipWord r2.2
  let r3 := readTypeN v.start_weight s4
  let r4 := readTypeN v.weight_count r3.2
  ({ v with tex_coord := ⟨r1.1, r2.1⟩, start_weight := r3.1, weight_count := r4.1 },
    readLine r4.2)

/-- The vertex loop; returns the pushed vertices, the final mutable vertex
and the remaining stream. -/
def vertsLoop : Nat → Vertex → List Char → List Vertex × Vertex × List Char
  | 0, v, s => ([], v, s)
  | n + 1, v, s =>
    let (v', s') := vertIter v s
    let (rest, vf, s'') := vertsLoop n v' s'
    (v' :: rest, vf, s'')

/-- One iteration of the triangle loop (lines 270-284): two discarded
tokens then the three vertex indices, then the rest of the line. -/
def triIter (t : Triangle) (s : List Char) : Triangle × List Char :=
  let s1 := skipWord (skipWord s)
  let r1 := readTypeN t.i0 s1
  let r2 := readTypeN t.i1 r1.2
  let r3 := readTypeN t.i2 r2.2
  ({ i0 := r1.1, i1 := r2.1, i2 := r3.1 }, readLine r3.2)

/-- The triangle loop; returns the pushed triangles, the final mutable
triangle and the remaining stream. -/
def trisLoop : Nat → Triangle → List Char → List Triangle × Triangle × List Char
  | 0, t, s => ([], t, s)
  | n + 1, t, s =>
    let (t', s') := triIter t s
    let (rest, tf, s'') := trisLoop n t' s'
    (t' :: rest, tf, s'')

/-- One iteration of the weight loop (lines 292-306): two discarded tokens,
`joint_id`, `bias`, a discarded token, the three local position
components, a discarded token, then the rest of the line. -/
def weightIter (w : Weight) (s : List Char) : Weight × List Char :=
  let s1 := skipWord (skipWord s)
  let r1 := readTypeN w.joint_id s1
  let r2 := readTypeR w.bias r1.2
  let s4 := skipWord r2.2
  let r3 := readTypeR w.position.x s4
  let r4 := readTypeR w.position.y r3.2
  let r5 := readTypeR w.position.z r4.2
  let s8 := skipWord r5.2
  ({ joint_id := r1.1, bias := r2.1, position := ⟨r3.1, r4.1, r5.1⟩ }, readLine s8)

/-- The weight loop; returns the pushed weights, the final mutable weight
and the remaining stream. -/
def weightsLoop : Nat → Weight → List Char → List Weight × Weight × List Char
  | 0, w, s => ([], w, s)
  | n + 1, w, s =>
    let (w', s') := weightIter w s
    let (rest, wf, s'') := weightsLoop n w' s'
    (w' :: rest, wf, s'')

/-! ## Bind-pose skinning kernel (`prepare_mesh`, lines 330-356) -/

/-- The inner weight-summation loop of `prepare_mesh` (lines 342-351):
starting from accumulator `acc` at weight index `i` with `c` weights left,
add `(joint.position + rotate(joint.orientation, weight.position)) *
weight.bias` for each weight.  Indexing `mesh.weights` or `joints` out of
range fails the task in the source and is `none` here. -/
def weightAcc (joints : List Joint) (weights : List Weight) :
    Vec3 → Nat → Nat → Option Vec3
  | acc, _, 0 => some acc
  | acc, i, c + 1 => do
    let wt ← weights[i]?
    let j ← joints[wt.joint_id]?
    weightAcc joints weights
      (acc + (j.position + j.orientation.rotateVec wt.position).scale wt.bias) (i + 1) c

/-- Per-vertex body of `prepare_mesh`: reset `position`/`normal` to zero,
then run the weight summation over the vertex's weight range. -/
def skinVert (joints : List Joint) (weights : List Weight) (v : Vertex) : Option Vertex :=
  (weightAcc joints weights Vec3.zero v.start_weight v.weight_count).map
    fun p => { v with position := p, normal := Vec3.zero }

/-- Run an option-valued function over a list, stopping at the first
failure (the shape of the source's `for` loops over fallible bodies). -/
def optionMapAll {α β : Type} (g : α → Option β) : List α → Option (List β)
  | [] => some []
  | a :: t => do
    let b ← g a
    let r ← optionMapAll g t
    some (b :: r)

/-- `prepare_mesh` (lines 330-356): clear `positions`/`tex_coords`, skin
every vertex in place, and push each vertex's position and texture
coordinate into the output buffers. -/
def prepareMesh (joints : List Joint) (mesh : Mesh) : Option Mesh :=
  (optionMapAll (skinVert joints mesh.weights) mesh.verts).map fun vs =>
    { mesh with
        verts := vs
        positions := vs.map Vertex.position
        tex_coords := vs.map Vertex.tex_coord }

/-! ## Animated skinning kernel (`prepare_mesh_with_skeleton`, lines 358-382) -/

/-- The inner weight-summation loop of `prepare_mesh_with_skeleton`
(lines 372-380), identical to `weightAcc` but indexing the animated
skeleton instead of the bind joints. -/
def weightAccSkel (skel : List SkelJoint) (weights : List Weight) :
    Vec3 → Nat → Nat → Option Vec3
  | acc, _, 0 => some acc
  | acc, i, c + 1 => do
    let wt ← weights[i]?
    let j ← skel[wt.joint_id]?
    weightAccSkel skel weights
      (acc + (j.position + j.orientation.rotateVec wt.position).scale wt.bias) (i + 1) c

/-- Walk the vertex list, overwriting `positions[i]` for each vertex `i`
(taking the mutable reference `&mut mesh.positions[i]` fails the task when
`i` is out of range, hence the `get?` guard). -/
def setPositions (skel : List SkelJoint) (weights : List Weight) :
    List Vertex → Nat → List Vec3 → Option (List Vec3)
  | [], _, ps => some ps
  | v :: vs, i, ps => do
    let _ ← ps[i]?
    let p ← weightAccSkel skel weights Vec3.zero v.start_weight v.weight_count
    setPositions skel weights vs (i + 1) (ps.set i p)

/-- `prepare_mesh_with_skeleton` (lines 358-382): overwrite the mesh's
`positions` buffer in place from the animated skeleton; nothing else in
the mesh is touched. -/
def prepareMeshWithSkeleton (skel : List SkelJoint) (mesh : Mesh) : Option Mesh :=
  (setPositions skel mesh.weights mesh.verts 0 mesh.positions).map
    fun ps => { mesh with positions := ps }

/-! ## The `mesh` block (lines 187-318) -/

/-- Strip literal quote characters (`str::replace(texture, "\"", "")`,
line 235). -/
def stripQuotes (s : String) : String := ⟨s.data.filter (fun c => !(c == '"'))⟩

/-- Modelled from the spec: the shader token is run through the external
path code (`PosixPath`/`WindowsPath` normalize + `filename`, lines
213-233); §6 reduces this to taking the filename component, i.e. the part
after the last path separator. -/
def filenameOf (s : String) : String :=
  ⟨(s.data.reverse.takeWhile (fun c => !(c == '/') && !(c == '\\'))).reverse⟩

/-- The mutable local state of the `mesh` block (lines 189-195): the mesh
being built plus the reused vertex/triangle/weight variables and the three
count locals. -/
structure MState where
  mesh : Mesh
  vert : Vertex
  tri : Triangle
  weight : Weight
  num_verts : Int
  num_tris : Int
  num_weights : Int

/-- Initial `mesh` block state (lines 189-195). -/
def MState.init : MState :=
  ⟨Mesh.init, Vertex.init, Triangle.init, Weight.init, 0, 0, 0⟩

/-- The while-not-closing-brace loop of the `mesh` block (lines 202-313).
`fuel` bounds the number of iterations; running out of fuel models the
source's divergence on a stream that ends inside a mesh block and is
returned as `none`. -/
def meshLoop : Nat → String → MState → List Char → Option (MState × List Char)
  | 0, _, _, _ => none
  | fuel + 1, dir, st, s =>
    let (w, s1) := readWord s
    if w = "\x7d" then some (st, s1)
    else if w = "shader" then
      let (tok, s2) := readWord s1
      let st' := { st with mesh :=
        { st.mesh with texture := dir ++ "/" ++ stripQuotes (filenameOf tok) } }
      meshLoop fuel dir st' (readLine s2)
    else if w = "numverts" then
      let (n, s2) := readTypeI st.num_verts s1
      let s3 := readLine s2
      let (vs, vf, s4) := vertsLoop n.toNat st.vert s3
      let st' := { st with
        num_verts := n
        vert := vf
        mesh := { st.mesh with
          verts := st.mesh.verts ++ vs
          tex_coords := st.mesh.tex_coords ++ vs.map Vertex.tex_coord } }
      meshLoop fuel dir st' s4
    else if w = "numtris" then
      let (n, s2) := readTypeI st.num_tris s1
      let s3 := readLine s2
      let (ts, tf, s4) := trisLoop n.toNat st.tri s3
      let st' := { st with
        num_tris := n
        tri := tf
        mesh := { st.mesh with
          triangles := st.mesh.triangles ++ ts
          indices := st.mesh.indices ++ ts.flatMap (fun t => [t.i0, t.i1, t.i2]) } }
      meshLoop fuel dir st' s4
    else if w = "numweights" then
      let (n, s2) := readTypeI st.num_weights s1
      let s3 := readLine s2
      let (ws, wf, s4) := weightsLoop n.toNat st.weight s3
      let st' := { st with
        num_weights := n
        weight := wf
        mesh := { st.mesh with weights := st.mesh.weights ++ ws } }
      meshLoop fuel dir st' s4
    else
      meshLoop fuel dir st (readLine s1)

/-! ## The top-level parse loop of `load` (lines 124-324) -/

/-- The outer `while !fio.eof()` loop.  One word is read per iteration; an
empty word models the end-of-file exit.  Note the catch-all arm for an
unrecognized top-level token (line 319) is empty: it skips nothing beyond
the token itself.  `fuel` bounds the iterations; exhaustion is `none`. -/
noncomputable def parseLoop : Nat → Model → List Char → Option Model
  | 0, _, _ => none
  | fuel + 1, m, s =>
    let (w, s1) := readWord s
    if w = "" then some m
    else if w = "MD5Version" then
      let (v, s2) := readTypeI m.version s1
      parseLoop fuel { m with version := v } s2
    else if w = "commandline" then
      parseLoop fuel m (readLine s1)
    else if w = "numJoints" then
      let (n, s2) := readTypeI m.num_joints s1
      parseLoop fuel { m with num_joints := n, joints := [] } s2
    else if w = "numMeshes" then
      let (n, s2) := readTypeI m.num_meshes s1
      parseLoop fuel { m with num_meshes := n, meshes := [] } s2
    else if w = "joints" then
      let s2 := skipWord s1
      let (js, s3) := jointsLoop m.num_joints.toNat Joint.init s2
      let s4 := skipWord s3
      parseLoop fuel { m with joints := m.joints ++ js } s4
    else if w = "mesh" then
      let s2 := skipWord s1
      match meshLoop (s2.length + 1) m.file_directory MState.init s2 with
      | none => none
      | some (st, s3) =>
        match prepareMesh m.joints st.mesh with
        | none => none
        | some mesh' => parseLoop fuel { m with meshes := m.meshes ++ [mesh'] } s3
    else
      parseLoop fuel m s1

/-- `load` (lines 76-328).  The file contents are passed as
`Option (List Char)`: `none` models a file that failed to open, in which
case the function returns `false` immediately, before the
"Clear existing data" lines 83-84 run.  On a successful open the joint and
mesh sequences are cleared and the parse loop runs to end of input,
whereupon `load` reports `true`. -/
noncomputable def loadModel (m : Model) (content : Option (List Char)) :
    Option (Model × Bool) :=
  match content with
  | none => some (m, false)
  | some s =>
    (parseLoop (s.length + 1) { m with joints := [], meshes := [] } s).map
      fun m' => (m', true)

/-- `Model::new` (lines 43-74): build the initial model (the directory is
extracted from the path by external path code and passed here already
split off), call `load`, and return the model, discarding `load`'s boolean
result.  The return type carries no failure indication; the outer `Option`
only models the task failure that out-of-range indexing would raise. -/
noncomputable def modelNew (dir : String) (content : Option (List Char)) : Option Model :=
  (loadModel (mkModel dir) content).map Prod.fst

/-! ## Animation loading and per-frame update (lines 384-424) -/

/-- The index-comparison loop of `check_animation` (lines 413-421),
walking the model's joints while indexing `animation.joint_infos` at the
same index (`none` models the task failure of an out-of-range index). -/
def checkLoop (infos : List JointInfo) : List Joint → Nat → Option Bool
  | [], _ => some true
  | j :: rest, i => do
    let ai ← infos[i]?
    if j.name ≠ ai.name ∨ j.parent ≠ ai.parent_id then some false
    else checkLoop infos rest (i + 1)

/-- `check_animation` (lines 408-424): reject on a joint-count mismatch,
then walk the joints comparing name and parent index. -/
def checkAnim (m : Model) (a : Animation) : Option Bool :=
  if m.num_joints ≠ a.num_joints then some false
  else checkLoop a.joint_infos m.joints 0

/-- `load_animation` (lines 395-406).  The result of `Animation::new`
(external file loading) is passed in as `cand`.  The candidate is stored
into `self.animation` unconditionally, before any validation; a candidate
that fails the topology check is then replaced by `none`.  Returns the
final model and `self.animation.is_some()`. -/
def loadAnim (m : Model) (cand : Option Animation) : Option (Model × Bool) :=
  match cand with
  | none => some ({ m with animation := none }, false)
  | some a => do
    let valid ← checkAnim { m with animation := some a } a
    let m2 : Model :=
      if valid then { m with animation := some a } else { m with animation := none }
    some (m2, m2.animation.isSome)

/-- `update` (lines 384-393): when an animation is loaded, advance it
(`Animation::update` is external; it is passed in as `animUpd`, modelled
from the spec §6 `advance`) and re-skin every mesh against the updated
animated skeleton; otherwise do nothing. -/
def modelUpdate (animUpd : ℝ → Animation → Animation) (m : Model) (dt : ℝ) :
    Option Model :=
  match m.animation with
  | none => some m
  | some a =>
    let a' := animUpd dt a
    (optionMapAll (prepareMeshWithSkeleton a'.animated_skeleton) m.meshes).map
      fun ms => { m with animation := some a', meshes := ms }

/-! ## Specification-side definitions

These follow the wording of the spec/claims and are compared against the
embedded code by the theorems below. -/

/-- Contribution of the weight at index `k` per the claim's formula:
`(joint.position + rotate(joint.orientation, weight.position)) *
weight.bias`, with out-of-range lookups defaulting to zero (the theorems
only use this under in-bounds preconditions). -/
def weightContrib (joints : List Joint) (weights : List Weight) (k : Nat) : Vec3 :=
  match weights[k]? with
  | none => Vec3.zero
  | some wt =>
    match joints[wt.joint_id]? with
    | none => Vec3.zero
    | some j => (j.position + j.orientation.rotateVec wt.position).scale wt.bias

/-- The claim's vertex position: the sum, starting from the zero vector,
over the vertex's `weight_count` consecutive weights beginning at
`start_weight`. -/
def vertPosSpec (joints : List Joint) (weights : List Weight) (v : Vertex) : Vec3 :=
  ∑ w ∈ Finset.range v.weight_count, weightContrib joints weights (v.start_weight + w)

/-- The referential precondition of claim C10 for the bind-pose kernel:
every vertex's weight range lies inside the mesh's weight array and every
weight references a valid joint. -/
def skinPrecond (joints : List Joint) (mesh : Mesh) : Prop :=
  (∀ v ∈ mesh.verts, v.start_weight + v.weight_count ≤ mesh.weights.length) ∧
  (∀ w ∈ mesh.weights, w.joint_id < joints.length)

instance (joints : List Joint) (mesh : Mesh) : Decidable (skinPrecond joints mesh) := by
  unfold skinPrecond; infer_instance

/-- The same precondition against an animated skeleton. -/
def skinPrecondSkel (skel : List SkelJoint) (mesh : Mesh) : Prop :=
  (∀ v ∈ mesh.verts, v.start_weight + v.weight_count ≤ mesh.weights.length) ∧
  (∀ w ∈ mesh.weights, w.joint_id < skel.length)

instance (skel : List SkelJoint) (mesh : Mesh) : Decidable (skinPrecondSkel skel mesh) := by
  unfold skinPrecondSkel; infer_instance

/-! ## Helper lemmas about the skinning kernels -/

theorem Vec3.zero_add' (v : Vec3) : Vec3.zero + v = v := zero_add v

theorem optionMapAll_eq_map {α β : Type} (g : α → Option β) (f : α → β) :
    ∀ (l : List α), (∀ v ∈ l, g v = some (f v)) → optionMapAll g l = some (l.map f) := by
  intro l
  induction l with
  | nil => intro _; rfl
  | cons a t ih =>
    intro h
    have ha : g a = some (f a) := h a (List.mem_cons_self a t)
    have ht := ih (fun v hv => h v (List.mem_cons_of_mem a hv))
    simp [optionMapAll, ha, ht]

theorem weightAcc_eq_sum (joints : List Joint) (weights : List Weight) :
    ∀ (c : Nat) (acc : Vec3) (i : Nat),
      (∀ k, k < c → i + k < weights.length) →
      (∀ w ∈ weights, w.joint_id < joints.length) →
      weightAcc joints weights acc i c =
        some (acc + ∑ w ∈ Finset.range c, weightContrib joints weights (i + w)) := by
  intro c
  induction c with
  | zero => intro acc i _ _; simp [weightAcc]
  | succ c ih =>
    intro acc i hw hj
    have hi : i < weights.length := by
      have := hw 0 (Nat.succ_pos c); simpa using this
    obtain ⟨wt, hwt⟩ : ∃ wt, weights[i]? = some wt := by
      rw [List.getElem?_eq_getElem hi]; exact ⟨_, rfl⟩
    have hmem : wt ∈ weights := by
      obtain ⟨hlt, rfl⟩ := List.getElem?_eq_some.mp hwt
      exact List.getElem_mem hlt
    obtain ⟨j, hjg⟩ : ∃ j, joints[wt.joint_id]? = some j := by
      rw [List.getElem?_eq_getElem (hj wt hmem)]; exact ⟨_, rfl⟩
    have step :
        weightAcc joints weights acc i (c + 1) =
        weightAcc joints weights
          (acc + (j.position + j.orientation.rotateVec wt.position).scale wt.bias)
          (i + 1) c := by
      simp [weightAcc, hwt, hjg]
    rw [step, ih _ (i + 1) (fun k hk => by have := hw (k + 1) (Nat.succ_lt_succ hk); omega)
      hj]
    have hcontrib :
        weightContrib joints weights i =
          (j.position + j.orientation.rotateVec wt.position).scale wt.bias := by
      simp [weightContrib, hwt, hjg]
    have hsum :
        ∑ w ∈ Finset.range (c + 1), weightContrib joints weights (i + w) =
          (∑ w ∈ Finset.range c, weightContrib joints weights (i + 1 + w)) +
            weightContrib joints weights i := by
      rw [Finset.sum_range_succ' (fun w => weightContrib joints weights (i + w)) c]
      simp only [Nat.add_zero]
      congr 1
      apply Finset.sum_congr rfl
      intro w _
      congr 1
      omega
    rw [hsum, hcontrib]
    congr 1
    abel

theorem skinVert_eq (joints : List Joint) (weights : List Weight) (v : Vertex)
    (hw : v.start_weight + v.weight_count ≤ weights.length)
    (hj : ∀ w ∈ weights, w.joint_id < joints.length) :
    skinVert joints weights v =
      some { v with position := vertPosSpec joints weights v, normal := Vec3.zero } := by
  unfold skinVert
  rw [weightAcc_eq_sum joints weights v.weight_count Vec3.zero v.start_weight
    (fun k hk => by omega) hj, Vec3.zero_add']
  rfl

theorem prepareMesh_char (joints : List Joint) (mesh : Mesh)
    (hb : skinPrecond joints mesh) :
    prepareMesh joints mesh = some
      { mesh with
          verts := mesh.verts.map fun v =>
            { v with position := vertPosSpec joints mesh.weights v, normal := Vec3.zero }
          positions := mesh.verts.map (vertPosSpec joints mesh.weights)
          tex_coords := mesh.verts.map Vertex.tex_coord } := by
  unfold prepareMesh
  rw [optionMapAll_eq_map (skinVert joints mesh.weights)
    (fun v => { v with position := vertPosSpec joints mesh.weights v, normal := Vec3.zero })
    mesh.verts (fun v hv => skinVert_eq joints mesh.weights v (hb.1 v hv) hb.2)]
  rw [Option.map_some', List.map_map, List.map_map]
  rfl

theorem weightAccSkel_isSome (skel : List SkelJoint) (weights : List Weight) :
    ∀ (c : Nat) (acc : Vec3) (i : Nat),
      (∀ k, k < c → i + k < weights.length) →
      (∀ w ∈ weights, w.joint_id < skel.length) →
      (weightAccSkel skel weights acc i c).isSome := by
  intro c
  induction c with
  | zero => intro acc i _ _; simp [weightAccSkel]
  | succ c ih =>
    intro acc i hw hj
    have hi : i < weights.length := by
      have := hw 0 (Nat.succ_pos c); simpa using this
    obtain ⟨wt, hwt⟩ : ∃ wt, weights[i]? = some wt := by
      rw [List.getElem?_eq_getElem hi]; exact ⟨_, rfl⟩
    have hmem : wt ∈ weights := by
      obtain ⟨hlt, rfl⟩ := List.getElem?_eq_some.mp hwt
      exact List.getElem_mem hlt
    obtain ⟨j, hjg⟩ : ∃ j, skel[wt.joint_id]? = some j := by
      rw [List.getElem?_eq_getElem (hj wt hmem)]; exact ⟨_, rfl⟩
    have step :
        weightAccSkel skel weights acc i (c + 1) =
        weightAccSkel skel weights
          (acc + (j.position + j.orientation.rotateVec wt.position).scale wt.bias)
          (i + 1) c := by
      simp [weightAccSkel, hwt, hjg]
    rw [step]
    exact ih _ (i + 1) (fun k hk => by have := hw (k + 1) (Nat.succ_lt_succ hk); omega) hj

theorem setPositions_isSome (skel : List SkelJoint) (weights : List Weight)
    (hj : ∀ w ∈ weights, w.joint_id < skel.length) :
    ∀ (vs : List Vertex) (i : Nat) (ps : List Vec3),
      (∀ v ∈ vs, v.start_weight + v.weight_count ≤ weights.length) →
      i + vs.length ≤ ps.length →
      (setPositions skel weights vs i ps).isSome := by
  intro vs
  induction vs with
  | nil => intro i ps _ _; simp [setPositions]
  | cons v t ih =>
    intro i ps hw hlen
    have hi : i < ps.length := by simp at hlen; omega
    obtain ⟨q, hq⟩ : ∃ q, ps[i]? = some q := by
      rw [List.getElem?_eq_getElem hi]; exact ⟨_, rfl⟩
    have hv := hw v (List.mem_cons_self v t)
    have hacc := weightAccSkel_isSome skel weights v.weight_count Vec3.zero v.start_weight
      (fun k hk => by omega) hj
    obtain ⟨p, hp⟩ := Option.isSome_iff_exists.mp hacc
    have step : setPositions skel weights (v :: t) i ps =
        setPositions skel weights t (i + 1) (ps.set i p) := by
      simp [setPositions, hq, hp]
    rw [step]
    exact ih (i + 1) (ps.set i p) (fun u hu => hw u (List.mem_cons_of_mem v hu))
      (by rw [List.length_set]; simp at hlen ⊢; omega)

theorem setPositions_length (skel : List SkelJoint) (weights : List Weight) :
    ∀ (vs : List Vertex) (i : Nat) (ps : List Vec3) (ps' : List Vec3),
      setPositions skel weights vs i ps = some ps' → ps'.length = ps.length := by
  intro vs
  induction vs with
  | nil => intro i ps ps' h; simp [setPositions] at h; rw [← h]
  | cons v t ih =>
    intro i ps ps' h
    simp only [setPositions, Option.bind_eq_bind] at h
    cases hq : ps[i]? with
    | none => rw [hq] at h; simp at h
    | some q =>
      rw [hq] at h
      cases hp : weightAccSkel skel weights Vec3.zero v.start_weight v.weight_count with
      | none => rw [hp] at h; simp at h
      | some p =>
        rw [hp] at h
        simp at h
        have := ih (i + 1) (ps.set i p) ps' h
        rw [this, List.length_set]

theorem prepareMeshWithSkeleton_fields (skel : List SkelJoint) (mesh mesh' : Mesh)
    (h : prepareMeshWithSkeleton skel mesh = some mesh') :
    ∃ ps, mesh' = { mesh with positions := ps } := by
  unfold prepareMeshWithSkeleton at h
  cases hs : setPositions skel mesh.weights mesh.verts 0 mesh.positions with
  | none => rw [hs] at h; simp at h
  | some ps =>
    rw [hs] at h
    simp at h
    exact ⟨ps, h.symm⟩

theorem checkLoop_spec (infos : List JointInfo) :
    ∀ (js : List Joint) (i : Nat), i + js.length ≤ infos.length →
      (checkLoop infos js i).isSome ∧
      (checkLoop infos js i = some true ↔
        ∀ k j ai, js[k]? = some j → infos[i + k]? = some ai →
          j.name = ai.name ∧ j.parent = ai.parent_id) := by
  intro js
  induction js with
  | nil =>
    intro i _
    constructor
    · simp [checkLoop]
    · simp [checkLoop]
  | cons j t ih =>
    intro i hlen
    have hi : i < infos.length := by simp at hlen; omega
    obtain ⟨ai, hai⟩ : ∃ ai, infos[i]? = some ai := by
      rw [List.getElem?_eq_getElem hi]; exact ⟨_, rfl⟩
    by_cases hmatch : j.name = ai.name ∧ j.parent = ai.parent_id
    · have step : checkLoop infos (j :: t) i = checkLoop infos t (i + 1) := by
        simp [checkLoop, hai, hmatch.1, hmatch.2]
      have iht := ih (i + 1) (by simp at hlen ⊢; omega)
      rw [step]
      refine ⟨iht.1, ?_⟩
      rw [iht.2]
      constructor
      · intro hall k jj aii hjj haii
        match k with
        | 0 =>
          simp at hjj
          simp [hai, Nat.add_zero] at haii
          rw [← hjj, ← haii]
          exact hmatch
        | k + 1 =>
          simp at hjj
          exact hall k jj aii hjj (by rw [← haii]; congr 1; omega)
      · intro hall k jj aii hjj haii
        exact hall (k + 1) jj aii (by simpa using hjj) (by rw [← haii]; congr 1; omega)
    · have step : checkLoop infos (j :: t) i = some false := by
        rcases not_and_or.mp hmatch with hn | hn <;> simp [checkLoop, hai, hn]
      rw [step]
      refine ⟨by simp, ?_⟩
      constructor
      · intro h; cases h
      · intro hall
        exact absurd (hall 0 j ai (by simp) (by simpa using hai)) hmatch

theorem optionMapAll_preserves {α π : Type} (f : α → Option α) (p : α → π)
    (hp : ∀ x y, f x = some y → p y = p x) :
    ∀ (l l' : List α), optionMapAll f l = some l' → l'.map p = l.map p := by
  intro l
  induction l with
  | nil => intro l' h; simp [optionMapAll] at h; rw [← h]
  | cons a t ih =>
    intro l' h
    simp only [optionMapAll, Option.bind_eq_bind] at h
    cases hb : f a with
    | none => rw [hb] at h; simp at h
    | some b =>
      rw [hb] at h
      cases hr : optionMapAll f t with
      | none => rw [hr] at h; simp at h
      | some r =>
        rw [hr] at h
        simp at h
        rw [← h]
        simp [hp a b hb, ih r hr]

/-! ## Concrete inputs used by the claim witnesses and counterexamples -/

/-- Claim C1's "in particular" scenario: one joint with identity
orientation at the origin. -/
def c1joint : Joint :=
  { name := "root", parent := -1, position := Vec3.zero, orientation := ⟨1, 0, 0, 0⟩ }

/-- Claim C1's mesh: one vertex fully weighted (bias 1) to joint 0 with
weight local position (1,0,0). -/
def c1mesh : Mesh :=
  { Mesh.init with
      verts := [{ Vertex.init with start_weight := 0, weight_count := 1 }]
      weights := [{ joint_id := 0, bias := 1, position := ⟨1, 0, 0⟩ }] }

/-- A mesh whose single vertex has `start_weight = 1` but `weight_count =
0`: the weight range is formally out of bounds for the empty weight array,
yet the skinning loop body never runs. -/
def c10mesh : Mesh := { Mesh.init with verts := [{ Vertex.init with start_weight := 1 }] }

/-- The same mesh with a positions buffer entry for the animated kernel. -/
def c10meshPos : Mesh := { c10mesh with positions := [Vec3.zero] }

/-- A model/animation pair with matching topology for the C2 witness. -/
def c2model : Model :=
  { mkModel "" with
      num_joints := 1
      joints := [{ name := "r", parent := -1, position := Vec3.zero, orientation := ⟨1, 0, 0, 0⟩ }] }

/-- The C2 witness candidate animation. -/
def c2anim : Animation := ⟨1, [⟨"r", -1⟩], []⟩

/-- A previously attached animation for the C3 counterexample. -/
def c3anim : Animation := ⟨0, [], []⟩

/-- A model that already carries `c3anim`. -/
def c3model : Model := { mkModel "" with animation := some c3anim }

/-- A model with previously loaded joints for the C4 counterexample. -/
def c4model : Model :=
  { mkModel "" with joints := [⟨"j", -1, Vec3.zero, ⟨1, 0, 0, 0⟩⟩] }

/-! ## Claim theorems -/

/-- C1: for every mesh satisfying the referential precondition, the
bind-pose kernel `prepare_mesh` sets each vertex's object-space position
to the sum, starting from the zero vector, over its `weight_count`
consecutive weights beginning at `start_weight`, of
`(joint.position + rotate(joint.orientation, weight.position)) *
weight.bias` with `joint` the bind joint indexed by the weight's
`joint_id`; the positions buffer receives exactly these sums and
`tex_coords` is copied through. -/
theorem bind_pose_skinning_formula (joints : List Joint) (mesh : Mesh)
    (hb : skinPrecond joints mesh) :
    prepareMesh joints mesh = some
      { mesh with
          verts := mesh.verts.map fun v =>
            { v with position := vertPosSpec joints mesh.weights v, normal := Vec3.zero }
          positions := mesh.verts.map (vertPosSpec joints mesh.weights)
          tex_coords := mesh.verts.map Vertex.tex_coord } :=
  prepareMesh_char joints mesh hb

/-- Witness for C1: the single-weight scenario — bias 1, identity
orientation, joint at the origin, weight position (1,0,0) — yields vertex
position (1,0,0). -/
theorem bind_pose_skinning_formula_witness :
    skinPrecond [c1joint] c1mesh ∧
    ∃ m', prepareMesh [c1joint] c1mesh = some m' ∧ m'.positions = [(⟨1, 0, 0⟩ : Vec3)] := by
  refine ⟨by decide, ?_⟩
  have h := bind_pose_skinning_formula [c1joint] c1mesh (by decide)
  refine ⟨_, h, ?_⟩
  show c1mesh.verts.map (vertPosSpec [c1joint] c1mesh.weights) = [(⟨1, 0, 0⟩ : Vec3)]
  simp [c1mesh, vertPosSpec, Vertex.init, Finset.sum_range_one, weightContrib,
    Quat.rotateVec, Vec3.cross, Vec3.scale, Vec3.add_def, Vec3.zero, c1joint,
    Vec3.ext_iff']

/-- C10 counterexample: the precondition is not necessary for totality.
With one vertex of `weight_count = 0` and `start_weight = 1` over an empty
weight array, both kernels run to completion (the loop body never
executes) although the claimed precondition
`start_weight + weight_count ≤ length of the weight array` fails. -/
theorem skinning_precondition_not_necessary :
    (prepareMesh [] c10mesh).isSome ∧
    (prepareMeshWithSkeleton [] c10meshPos).isSome ∧
    ¬ skinPrecond [] c10mesh ∧
    ¬ skinPrecondSkel [] c10meshPos := by decide

/-- C10 amended: both skinning kernels index without bounds checks, and
they are total whenever every vertex's weight range lies inside the
mesh's weight array and every weight's `joint_id` indexes a valid joint
(for the animated kernel the positions buffer must additionally hold an
entry per vertex, as the bind-pose pass guarantees); the precondition is
sufficient but not necessary. -/
theorem skinning_total_under_precondition :
    ∀ (joints : List Joint) (skel : List SkelJoint) (mesh : Mesh),
      (skinPrecond joints mesh → (prepareMesh joints mesh).isSome) ∧
      (skinPrecondSkel skel mesh → mesh.verts.length ≤ mesh.positions.length →
        (prepareMeshWithSkeleton skel mesh).isSome) := by
  intro joints skel mesh
  constructor
  · intro hb
    rw [prepareMesh_char joints mesh hb]
    rfl
  · intro hb hlen
    unfold prepareMeshWithSkeleton
    have hs := setPositions_isSome skel mesh.weights hb.2 mesh.verts 0 mesh.positions hb.1
      (by omega)
    obtain ⟨ps, hps⟩ := Option.isSome_iff_exists.mp hs
    rw [hps]
    rfl

/-- Witness for C10's amended theorem at the empty mesh. -/
theorem skinning_total_under_precondition_witness :
    (prepareMesh [] Mesh.init).isSome ∧ (prepareMeshWithSkeleton [] Mesh.init).isSome :=
  ⟨(skinning_total_under_precondition [] [] Mesh.init).1 (by decide),
   (skinning_total_under_precondition [] [] Mesh.init).2 (by decide) (by decide)⟩

/-- C2: under well-formed joint counts, `check_animation` accepts exactly
when the joint counts agree and every index matches in name and parent. -/
theorem check_animation_iff (m : Model) (a : Animation)
    (h1 : (m.joints.length : Int) = m.num_joints)
    (h2 : (a.joint_infos.length : Int) = a.num_joints) :
    (checkAnim m a = some true ↔
      (m.num_joints = a.num_joints ∧
        ∀ (i : Nat) (j : Joint) (ai : JointInfo),
          m.joints[i]? = some j → a.joint_infos[i]? = some ai →
          j.name = ai.name ∧ j.parent = ai.parent_id)) ∧
    (checkAnim m a = some false ↔
      ¬(m.num_joints = a.num_joints ∧
        ∀ (i : Nat) (j : Joint) (ai : JointInfo),
          m.joints[i]? = some j → a.joint_infos[i]? = some ai →
          j.name = ai.name ∧ j.parent = ai.parent_id)) := by
  by_cases hn : m.num_joints = a.num_joints
  · have hlen : m.joints.length = a.joint_infos.length := by
      have hInt : (m.joints.length : Int) = (a.joint_infos.length : Int) := by
        rw [h1, h2, hn]
      exact_mod_cast hInt
    have hc : checkAnim m a = checkLoop a.joint_infos m.joints 0 := by
      simp [checkAnim, hn]
    obtain ⟨hsome, hiff⟩ := checkLoop_spec a.joint_infos m.joints 0 (by omega)
    have hmain : checkLoop a.joint_infos m.joints 0 = some true ↔
        ∀ (i : Nat) (j : Joint) (ai : JointInfo),
          m.joints[i]? = some j → a.joint_infos[i]? = some ai →
          j.name = ai.name ∧ j.parent = ai.parent_id := by
      rw [hiff]
      constructor
      · intro hall i j ai hj hai
        exact hall i j ai hj (by simpa using hai)
      · intro hall i j ai hj hai
        exact hall i j ai hj (by simpa using hai)
    constructor
    · rw [hc, hmain]
      constructor
      · intro hall; exact ⟨hn, hall⟩
      · intro hall; exact hall.2
    · rw [hc]
      obtain ⟨b, hb⟩ := Option.isSome_iff_exists.mp hsome
      cases b with
      | true =>
        rw [hb]
        constructor
        · intro hfalse; cases hfalse
        · intro hcontra
          exact absurd ⟨hn, (hmain.mp hb)⟩ hcontra
      | false =>
        rw [hb]
        constructor
        · intro _
          intro hcontra
          have : checkLoop a.joint_infos m.joints 0 = some true := hmain.mpr hcontra.2
          rw [hb] at this
          cases this
        · intro _; rfl
  · have hc : checkAnim m a = some false := by simp [checkAnim, hn]
    constructor
    · rw [hc]
      constructor
      · intro hfalse; cases hfalse
      · intro hcontra; exact absurd hcontra.1 hn
    · rw [hc]
      constructor
      · intro _ hcontra; exact absurd hcontra.1 hn
      · intro _; rfl

/-- Witness for C2: a one-joint model accepts a matching candidate. -/
theorem check_animation_iff_witness : checkAnim c2model c2anim = some true := by
  have h := check_animation_iff c2model c2anim (by decide) (by decide)
  apply h.1.mpr
  refine ⟨by decide, ?_⟩
  intro i j ai hj hai
  match i with
  | 0 =>
    simp [c2model, mkModel] at hj
    simp [c2anim] at hai
    rw [← hai]
    simp [← hj]
  | i + 1 =>
    simp [c2model, mkModel] at hj

/-- C3 counterexample: a model holding a previously attached animation
loses it on a failed `load_animation` call (the candidate is stored over
the prior animation before any validation), contradicting the claim that
the prior animation is still attached after the failed call. -/
theorem load_animation_failure_clears :
    loadAnim c3model none = some ({ c3model with animation := none }, false) ∧
    ({ c3model with animation := none } : Model).animation ≠ some c3anim := by
  constructor
  · rfl
  · simp

/-- C3 amended: a `load_animation` call that fails leaves the model with
no animation attached at all (the prior animation is cleared and the
model reverts to bind pose). -/
theorem load_animation_failure_leaves_none :
    ∀ (m : Model) (cand : Option Animation) (r : Model × Bool),
      loadAnim m cand = some r → r.2 = false → r.1.animation = none := by
  intro m cand r h hf
  cases cand with
  | none =>
    have : r = ({ m with animation := none }, false) := by
      have h' : some (({ m with animation := none } : Model), false) = some r := h
      exact (Option.some.inj h').symm
    rw [this]
  | some a =>
    simp only [loadAnim, Option.bind_eq_bind] at h
    cases hv : checkAnim { m with animation := some a } a with
    | none => rw [hv] at h; cases h
    | some b =>
      rw [hv] at h
      cases b with
      | true =>
        simp at h
        rw [← h] at hf
        cases hf
      | false =>
        simp at h
        rw [← h]

/-- Witness for C3's amended theorem. -/
theorem load_animation_failure_leaves_none_witness :
    (({ c3model with animation := none } : Model), false).1.animation = none :=
  load_animation_failure_leaves_none c3model none
    ({ c3model with animation := none }, false) rfl rfl

/-- C4 counterexample: when the file fails to open, `load` returns before
the "Clear existing data" lines run, so previously loaded joints are NOT
cleared, contradicting the claim that they are empty afterwards. -/
theorem load_open_failure_keeps_state :
    loadModel c4model none = some (c4model, false) ∧ c4model.joints ≠ [] := by
  constructor
  · rfl
  · simp [c4model, mkModel]

/-- C4 amended: a `load` call whose file cannot be opened returns failure
immediately and leaves the model completely unchanged (the clearing of
joints and meshes happens only after a successful open). -/
theorem load_open_failure_unchanged : ∀ m : Model, loadModel m none = some (m, false) :=
  fun _ => rfl

/-- C8: `update` with no animation loaded returns the model unchanged (all
meshes stay in bind pose), and whenever an update succeeds, only the
per-mesh positions buffers may differ: verts, triangles, weights,
tex_coords, indices, texture and the model's bind joints are preserved. -/
theorem update_touches_only_positions (animUpd : ℝ → Animation → Animation)
    (m : Model) (dt : ℝ) :
    (m.animation = none → modelUpdate animUpd m dt = some m) ∧
    (∀ m', modelUpdate animUpd m dt = some m' →
      m'.joints = m.joints ∧
      m'.meshes.map Mesh.verts = m.meshes.map Mesh.verts ∧
      m'.meshes.map Mesh.triangles = m.meshes.map Mesh.triangles ∧
      m'.meshes.map Mesh.weights = m.meshes.map Mesh.weights ∧
      m'.meshes.map Mesh.tex_coords = m.meshes.map Mesh.tex_coords ∧
      m'.meshes.map Mesh.indices = m.meshes.map Mesh.indices ∧
      m'.meshes.map Mesh.texture = m.meshes.map Mesh.texture) := by
  constructor
  · intro h
    unfold modelUpdate
    rw [h]
  · intro m' h
    cases ha : m.animation with
    | none =>
      unfold modelUpdate at h
      rw [ha] at h
      obtain rfl := Option.some.inj h
      exact ⟨rfl, rfl, rfl, rfl, rfl, rfl, rfl⟩
    | some a =>
      unfold modelUpdate at h
      rw [ha] at h
      dsimp only at h
      set skel := (animUpd dt a).animated_skeleton with hskel
      cases hms : optionMapAll (prepareMeshWithSkeleton skel) m.meshes with
      | none => rw [hms] at h; cases h
      | some ms =>
        rw [hms] at h
        simp only [Option.map_some'] at h
        obtain rfl := Option.some.inj h
        have preserve : ∀ {π : Type} (p : Mesh → π),
            (∀ (x y : Mesh) ps, y = { x with positions := ps } → p y = p x) →
            ms.map p = m.meshes.map p := by
          intro π p hfield
          apply optionMapAll_preserves (prepareMeshWithSkeleton skel) p
            (fun x y hxy => by
              obtain ⟨ps, hps⟩ := prepareMeshWithSkeleton_fields skel x y hxy
              exact hfield x y ps hps)
            m.meshes ms hms
        refine ⟨rfl, ?_, ?_, ?_, ?_, ?_, ?_⟩ <;>
          exact preserve _ (fun x y ps hy => by rw [hy])

/-- Witness for C8 at a model with no animation. -/
theorem update_touches_only_positions_witness :
    modelUpdate (fun _ a => a) (mkModel "") 0 = some (mkModel "") :=
  (update_touches_only_positions (fun _ a => a) (mkModel "") 0).1 rfl

/-- C9: `Model::new` evaluated at a path whose file cannot be opened.  It
returns a fully formed (empty) `Model` and discards `load`'s failure
boolean: the construct-from-file operation's return value carries no
failure indication, contradicting the claim (and agreeing with the
source's own `TODO: Return Option.` remark). -/
theorem model_new_swallows_open_failure : modelNew "." none = some (mkModel ".") := rfl

/-- C6: the derived quaternion scalar component satisfies
`w = sqrt(max(0, 1 - x² - y² - z²))`, is always non-negative, equals 1 at
the origin, restores unit norm whenever `x² + y² + z² ≤ 1` — and the
joints parser recomputes it (via `compute_w`) on every parsed joint's
orientation immediately after the three stored components are read. -/
theorem quaternion_w_reconstruction :
    (∀ x y z : ℝ,
      computeW x y z = Real.sqrt (max 0 (1 - x ^ 2 - y ^ 2 - z ^ 2)) ∧
      0 ≤ computeW x y z) ∧
    computeW 0 0 0 = 1 ∧
    (∀ x y z : ℝ, x ^ 2 + y ^ 2 + z ^ 2 ≤ 1 →
      (computeW x y z) ^ 2 + (x ^ 2 + y ^ 2 + z ^ 2) = 1) ∧
    (∀ (j : Joint) (s : List Char),
      ((jointIter j s).1.orientation).w =
        computeW ((jointIter j s).1.orientation).x ((jointIter j s).1.orientation).y
          ((jointIter j s).1.orientation).z) := by
  refine ⟨fun x y z => ⟨rfl, Real.sqrt_nonneg _⟩, ?_, ?_, ?_⟩
  · unfold computeW
    norm_num
  · intro x y z h
    have h0 : (0 : ℝ) ≤ 1 - x ^ 2 - y ^ 2 - z ^ 2 := by linarith
    unfold computeW
    rw [max_eq_right h0, Real.sq_sqrt h0]
    ring
  · intro j s
    simp [jointIter, Quat.withComputedW]

/-- Witness for C6's unit-norm clause at (x,y,z) = (1,0,0). -/
theorem quaternion_w_reconstruction_witness :
    (computeW 1 0 0) ^ 2 + ((1 : ℝ) ^ 2 + 0 ^ 2 + 0 ^ 2) = 1 :=
  quaternion_w_reconstruction.2.2.1 1 0 0 (by norm_num)

/-- Claim C5's scenario: a three-joint model file where joint 1's
`position.x` token (`zz`) and joint 3's `position.x` token (`oops`) are
not valid numbers, while joint 2 parses fully as position (5, 6, 7). -/
def c5input : List Char :=
  ("numJoints 3\njoints \x7b\n" ++
   "\"a\" -1 ( zz 2 3 ) ( 0 0 0 ) //\n" ++
   "\"b\" -1 ( 5 6 7 ) ( 0 0 0 ) //\n" ++
   "\"c\" -1 ( oops 8 9 ) ( 0 0 0 ) //\n" ++
   "\x7d\n").data

/-- Claim C7's scenario: an unrecognized top-level token followed, on the
same line, by a recognized keyword. -/
def c7input : List Char := "junk MD5Version 42 \n".data

/-- C5 counterexample: on `c5input` the load succeeds, but joint 3's
unparseable `position.x` is left at 5 — the value carried over from joint
2 through the mutable joint variable reused across loop iterations — and
not at the zero-initialized default the claim requires for entries after
the first iteration. -/
theorem tolerant_parse_not_zero_default :
    (loadModel (mkModel ".") (some c5input)).map
      (fun p => (p.2, p.1.joints.map (fun j => j.position.x))) =
      some (true, [(0 : ℝ), ((5 : ℚ) : ℝ), ((5 : ℚ) : ℝ)]) ∧
    ((5 : ℚ) : ℝ) ≠ 0 := by
  constructor
  · rfl
  · norm_num

/-- The stream at which the joints loop reads a joint's `position.x`:
after the name, the parent and one discarded bracket. -/
def jointPxStream (j : Joint) (s : List Char) : List Char :=
  skipWord (readTypeI j.parent (readWord s).2).2

/-- The stream at which the vertex loop reads `start_weight`: after three
discarded tokens, the two texture coordinates and one discarded token. -/
def vertSwStream (v : Vertex) (s : List Char) : List Char :=
  skipWord (readTypeR v.tex_coord.y
    (readTypeR v.tex_coord.x (skipWord (skipWord (skipWord s)))).2).2

/-- The stream at which the triangle loop reads its first vertex index:
after two discarded tokens. -/
def triI0Stream (s : List Char) : List Char := skipWord (skipWord s)

/-- The stream at which the weight loop reads `bias`: after two discarded
tokens and `joint_id`. -/
def weightBiasStream (wr : Weight) (s : List Char) : List Char :=
  (readTypeN wr.joint_id (skipWord (skipWord s))).2

theorem jointsLoop_chain :
    ∀ (n k : Nat) (j : Joint) (s : List Char), k + 1 < n →
      ∃ ek t, (jointsLoop n j s).1[k]? = some ek ∧
        (jointsLoop n j s).1[k + 1]? = some (jointIter ek t).1 := by
  intro n
  induction n with
  | zero => intro k j s h; exact absurd h (by omega)
  | succ n ih =>
    intro k j s h
    rcases hit : jointIter j s with ⟨e1, s1⟩
    have hd : (jointsLoop (n + 1) j s).1 = e1 :: (jointsLoop n e1 s1).1 := by
      simp only [jointsLoop, hit]
    cases k with
    | zero =>
      cases n with
      | zero => exact absurd h (by omega)
      | succ m =>
        rcases hit2 : jointIter e1 s1 with ⟨e2, s2⟩
        have hd2 : (jointsLoop (m + 1) e1 s1).1 = e2 :: (jointsLoop m e2 s2).1 := by
          simp only [jointsLoop, hit2]
        refine ⟨e1, s1, ?_, ?_⟩
        · rw [hd]
          simp
        · rw [hd, hit2]
          simp only [List.getElem?_cons_succ]
          rw [hd2]
          simp
    | succ k' =>
      obtain ⟨ek, t, h1, h2⟩ := ih k' e1 s1 (by omega)
      refine ⟨ek, t, ?_, ?_⟩
      · rw [hd]
        simpa using h1
      · rw [hd]
        simpa using h2

theorem vertsLoop_chain :
    ∀ (n k : Nat) (v : Vertex) (s : List Char), k + 1 < n →
      ∃ ek t, (vertsLoop n v s).1[k]? = some ek ∧
        (vertsLoop n v s).1[k + 1]? = some (vertIter ek t).1 := by
  intro n
  induction n with
  | zero => intro k v s h; exact absurd h (by omega)
  | succ n ih =>
    intro k v s h
    rcases hit : vertIter v s with ⟨e1, s1⟩
    have hd : (vertsLoop (n + 1) v s).1 = e1 :: (vertsLoop n e1 s1).1 := by
      simp only [vertsLoop, hit]
    cases k with
    | zero =>
      cases n with
      | zero => exact absurd h (by omega)
      | succ m =>
        rcases hit2 : vertIter e1 s1 with ⟨e2, s2⟩
        have hd2 : (vertsLoop (m + 1) e1 s1).1 = e2 :: (vertsLoop m e2 s2).1 := by
          simp only [vertsLoop, hit2]
        refine ⟨e1, s1, ?_, ?_⟩
        · rw [hd]
          simp
        · rw [hd, hit2]
          simp only [List.getElem?_cons_succ]
          rw [hd2]
          simp
    | succ k' =>
      obtain ⟨ek, t, h1, h2⟩ := ih k' e1 s1 (by omega)
      refine ⟨ek, t, ?_, ?_⟩
      · rw [hd]
        simpa using h1
      · rw [hd]
        simpa using h2

theorem trisLoop_chain :
    ∀ (n k : Nat) (tr : Triangle) (s : List Char), k + 1 < n →
      ∃ ek t, (trisLoop n tr s).1[k]? = some ek ∧
        (trisLoop n tr s).1[k + 1]? = some (triIter ek t).1 := by
  intro n
  induction n with
  | zero => intro k tr s h; exact absurd h (by omega)
  | succ n ih =>
    intro k tr s h
    rcases hit : triIter tr s with ⟨e1, s1⟩
    have hd : (trisLoop (n + 1) tr s).1 = e1 :: (trisLoop n e1 s1).1 := by
      simp only [trisLoop, hit]
    cases k with
    | zero =>
      cases n with
      | zero => exact absurd h (by omega)
      | succ m =>
        rcases hit2 : triIter e1 s1 with ⟨e2, s2⟩
        have hd2 : (trisLoop (m + 1) e1 s1).1 = e2 :: (trisLoop m e2 s2).1 := by
          simp only [trisLoop, hit2]
        refine ⟨e1, s1, ?_, ?_⟩
        · rw [hd]
          simp
        · rw [hd, hit2]
          simp only [List.getElem?_cons_succ]
          rw [hd2]
          simp
    | succ k' =>
      obtain ⟨ek, t, h1, h2⟩ := ih k' e1 s1 (by omega)
      refine ⟨ek, t, ?_, ?_⟩
      · rw [hd]
        simpa using h1
      · rw [hd]
        simpa using h2

theorem weightsLoop_chain :
    ∀ (n k : Nat) (wr : Weight) (s : List Char), k + 1 < n →
      ∃ ek t, (weightsLoop n wr s).1[k]? = some ek ∧
        (weightsLoop n wr s).1[k + 1]? = some (weightIter ek t).1 := by
  intro n
  induction n with
  | zero => intro k wr s h; exact absurd h (by omega)
  | succ n ih =>
    intro k wr s h
    rcases hit : weightIter wr s with ⟨e1, s1⟩
    have hd : (weightsLoop (n + 1) wr s).1 = e1 :: (weightsLoop n e1 s1).1 := by
      simp only [weightsLoop, hit]
    cases k with
    | zero =>
      cases n with
      | zero => exact absurd h (by omega)
      | succ m =>
        rcases hit2 : weightIter e1 s1 with ⟨e2, s2⟩
        have hd2 : (weightsLoop (m + 1) e1 s1).1 = e2 :: (weightsLoop m e2 s2).1 := by
          simp only [weightsLoop, hit2]
        refine ⟨e1, s1, ?_, ?_⟩
        · rw [hd]
          simp
        · rw [hd, hit2]
          simp only [List.getElem?_cons_succ]
          rw [hd2]
          simp
    | succ k' =>
      obtain ⟨ek, t, h1, h2⟩ := ih k' e1 s1 (by omega)
      refine ⟨ek, t, ?_, ?_⟩
      · rw [hd]
        simpa using h1
      · rw [hd]
        simpa using h2

/-- A single joint line whose `position.x` token (`zz`) is not a number. -/
def c5jline : List Char := "\"a\" -1 ( zz 2 3 ) ( 0 0 0 ) //\n".data

/-- C5 amended: an invalid numeric token is non-fatal and the affected
field retains its previous value.  Universally: (1) every `read_type!`
embedding (`readTypeR`/`readTypeN`/`readTypeI`, through which all numeric
fields of all four sequence loops are read) keeps the old value on a
conversion failure and stores the parsed value on success, in both cases
continuing directly after the one consumed token, so a failure never
aborts the parse; (2) in each of the four sequence loops (joints,
vertices, triangles, weights) every entry after the first is produced by
running the loop body on the PREVIOUS entry's record (one mutable record
is reused), so the "previous value" of a later entry's field is the
previous entry's field, not the zero-initialized default; (3) per
iteration, an unparseable token leaves the corresponding field of the
produced entry at the incoming record's value (shown for a representative
field of each of the four loops); and (4) end-to-end on `c5input`, load
still reports success, joint 1's bad `position.x` keeps the zero default,
joint 3's bad `position.x` keeps joint 2's value 5, and the subsequent
`position.y`/`position.z` fields parse correctly. -/
theorem tolerant_parse_keeps_previous_value :
    (∀ (old : ℝ) (s : List Char),
      (parseRatTok (readWord s).1 = none → readTypeR old s = (old, (readWord s).2)) ∧
      (∀ q : ℚ, parseRatTok (readWord s).1 = some q →
        readTypeR old s = ((q : ℝ), (readWord s).2))) ∧
    (∀ (old : Nat) (s : List Char),
      (parseNatTok (readWord s).1 = none → readTypeN old s = (old, (readWord s).2)) ∧
      (∀ v : Nat, parseNatTok (readWord s).1 = some v →
        readTypeN old s = (v, (readWord s).2))) ∧
    (∀ (old : Int) (s : List Char),
      (parseIntTok (readWord s).1 = none → readTypeI old s = (old, (readWord s).2)) ∧
      (∀ v : Int, parseIntTok (readWord s).1 = some v →
        readTypeI old s = (v, (readWord s).2))) ∧
    (∀ (n k : Nat) (j : Joint) (s : List Char), k + 1 < n →
      ∃ jk t, (jointsLoop n j s).1[k]? = some jk ∧
        (jointsLoop n j s).1[k + 1]? = some (jointIter jk t).1) ∧
    (∀ (n k : Nat) (v : Vertex) (s : List Char), k + 1 < n →
      ∃ vk t, (vertsLoop n v s).1[k]? = some vk ∧
        (vertsLoop n v s).1[k + 1]? = some (vertIter vk t).1) ∧
    (∀ (n k : Nat) (tr : Triangle) (s : List Char), k + 1 < n →
      ∃ tk t, (trisLoop n tr s).1[k]? = some tk ∧
        (trisLoop n tr s).1[k + 1]? = some (triIter tk t).1) ∧
    (∀ (n k : Nat) (wr : Weight) (s : List Char), k + 1 < n →
      ∃ wk t, (weightsLoop n wr s).1[k]? = some wk ∧
        (weightsLoop n wr s).1[k + 1]? = some (weightIter wk t).1) ∧
    (∀ (j : Joint) (s : List Char),
      parseRatTok (readWord (jointPxStream j s)).1 = none →
      (jointIter j s).1.position.x = j.position.x) ∧
    (∀ (v : Vertex) (s : List Char),
      parseNatTok (readWord (vertSwStream v s)).1 = none →
      (vertIter v s).1.start_weight = v.start_weight) ∧
    (∀ (tr : Triangle) (s : List Char),
      parseNatTok (readWord (triI0Stream s)).1 = none →
      (triIter tr s).1.i0 = tr.i0) ∧
    (∀ (wr : Weight) (s : List Char),
      parseRatTok (readWord (weightBiasStream wr s)).1 = none →
      (weightIter wr s).1.bias = wr.bias) ∧
    (loadModel (mkModel ".") (some c5input)).map
      (fun p => (p.2,
        p.1.joints.map (fun j => j.position.x),
        p.1.joints.map (fun j => j.position.y),
        p.1.joints.map (fun j => j.position.z))) =
      some (true,
        [(0 : ℝ), ((5 : ℚ) : ℝ), ((5 : ℚ) : ℝ)],
        [((2 : ℚ) : ℝ), ((6 : ℚ) : ℝ), ((8 : ℚ) : ℝ)],
        [((3 : ℚ) : ℝ), ((7 : ℚ) : ℝ), ((9 : ℚ) : ℝ)]) := by
  have hR : ∀ (old : ℝ) (s : List Char),
      (parseRatTok (readWord s).1 = none → readTypeR old s = (old, (readWord s).2)) ∧
      (∀ q : ℚ, parseRatTok (readWord s).1 = some q →
        readTypeR old s = ((q : ℝ), (readWord s).2)) := by
    intro old s
    constructor
    · intro h; simp [readTypeR, h]
    · intro q h; simp [readTypeR, h]
  have hN : ∀ (old : Nat) (s : List Char),
      (parseNatTok (readWord s).1 = none → readTypeN old s = (old, (readWord s).2)) ∧
      (∀ v : Nat, parseNatTok (readWord s).1 = some v →
        readTypeN old s = (v, (readWord s).2)) := by
    intro old s
    constructor
    · intro h; simp [readTypeN, h]
    · intro v h; simp [readTypeN, h]
  have hI : ∀ (old : Int) (s : List Char),
      (parseIntTok (readWord s).1 = none → readTypeI old s = (old, (readWord s).2)) ∧
      (∀ v : Int, parseIntTok (readWord s).1 = some v →
        readTypeI old s = (v, (readWord s).2)) := by
    intro old s
    constructor
    · intro h; simp [readTypeI, h]
    · intro v h; simp [readTypeI, h]
  refine ⟨hR, hN, hI, jointsLoop_chain, vertsLoop_chain, trisLoop_chain, weightsLoop_chain,
    ?_, ?_, ?_, ?_, by rfl⟩
  · intro j s h
    have e : (jointIter j s).1.position.x =
        (readTypeR j.position.x (jointPxStream j s)).1 := by
      dsimp only [jointIter, jointPxStream]
    rw [e, (hR j.position.x (jointPxStream j s)).1 h]
  · intro v s h
    have e : (vertIter v s).1.start_weight =
        (readTypeN v.start_weight (vertSwStream v s)).1 := by
      dsimp only [vertIter, vertSwStream]
    rw [e, (hN v.start_weight (vertSwStream v s)).1 h]
  · intro tr s h
    have e : (triIter tr s).1.i0 = (readTypeN tr.i0 (triI0Stream s)).1 := by
      dsimp only [triIter, triI0Stream]
    rw [e, (hN tr.i0 (triI0Stream s)).1 h]
  · intro wr s h
    have e : (weightIter wr s).1.bias = (readTypeR wr.bias (weightBiasStream wr s)).1 := by
      dsimp only [weightIter, weightBiasStream]
    rw [e, (hR wr.bias (weightBiasStream wr s)).1 h]

/-- Witness for C5's amended theorem: a failing real-token read keeps the
old value 7 and continues after the token, and the joints-loop iteration
on a line whose `position.x` token is `zz` keeps the incoming record's
`position.x`. -/
theorem tolerant_parse_keeps_previous_value_witness :
    readTypeR (7 : ℝ) ("oops 1").data = ((7 : ℝ), ("1").data) ∧
    (jointIter Joint.init c5jline).1.position.x = Joint.init.position.x :=
  ⟨(tolerant_parse_keeps_previous_value.1 (7 : ℝ) ("oops 1").data).1 (by decide),
   tolerant_parse_keeps_previous_value.2.2.2.2.2.2.2.1 Joint.init c5jline (by decide)⟩

/-- C7 counterexample: the top-level catch-all arm (line 319) is empty, so
after the unrecognized token `junk` the parser continues with the NEXT
TOKEN on the same line: `MD5Version 42` is processed and the version
becomes 42, whereas under the claim (rest of line ignored, resume at next
line) it would have stayed 0. -/
theorem unknown_token_line_not_skipped :
    (loadModel (mkModel ".") (some c7input)).map (fun p => (p.1.version, p.2)) =
      some (42, true) ∧ (42 : Int) ≠ 0 := by
  exact ⟨by decide, by decide⟩

/-- C7 amended: an unrecognized top-level token is skipped by itself — one
loop step consumes exactly that token and continues with the following
token, which may still be on the same line — and unknown top-level
content never aborts the parse (the step is a pure continuation). -/
theorem unknown_token_skipped_alone :
    ∀ (fuel : Nat) (m : Model) (s s1 : List Char) (w : String),
      readWord s = (w, s1) →
      w ≠ "" → w ≠ "MD5Version" → w ≠ "commandline" → w ≠ "numJoints" →
      w ≠ "numMeshes" → w ≠ "joints" → w ≠ "mesh" →
      parseLoop (fuel + 1) m s = parseLoop fuel m s1 := by
  intro fuel m s s1 w hr h0 h1 h2 h3 h4 h5 h6
  show (let p := readWord s
    if p.1 = "" then some m
    else if p.1 = "MD5Version" then
      let q := readTypeI m.version p.2
      parseLoop fuel { m with version := q.1 } q.2
    else if p.1 = "commandline" then parseLoop fuel m (readLine p.2)
    else if p.1 = "numJoints" then
      let q := readTypeI m.num_joints p.2
      parseLoop fuel { m with num_joints := q.1, joints := [] } q.2
    else if p.1 = "numMeshes" then
      let q := readTypeI m.num_meshes p.2
      parseLoop fuel { m with num_meshes := q.1, meshes := [] } q.2
    else if p.1 = "joints" then
      let s2 := skipWord p.2
      let r := jointsLoop m.num_joints.toNat Joint.init s2
      parseLoop fuel { m with joints := m.joints ++ r.1 } (skipWord r.2)
    else if p.1 = "mesh" then
      match meshLoop ((skipWord p.2).length + 1) m.file_directory MState.init
          (skipWord p.2) with
      | none => none
      | some (st, s3) =>
        match prepareMesh m.joints st.mesh with
        | none => none
        | some mesh' => parseLoop fuel { m with meshes := m.meshes ++ [mesh'] } s3
    else parseLoop fuel m p.2) = parseLoop fuel m s1
  rw [hr]
  simp [h0, h1, h2, h3, h4, h5, h6]

/-- Witness for C7's amended theorem: one step at `junk` in `c7input`. -/
theorem unknown_token_skipped_alone_witness :
    parseLoop 5 (mkModel ".") c7input = parseLoop 4 (mkModel ".") (readWord c7input).2 :=
  unknown_token_skipped_alone 4 (mkModel ".") c7input (readWord c7input).2 "junk"
    (by decide) (by decide) (by decide) (by decide) (by decide) (by decide) (by decide)
    (by decide)
